import Mathlib

/-!
# Verification of the rsi-slope-backtest core

Shallow embedding of the repository's core computation modules:

* `src/backend/services/slope.py`    — rolling least-squares slope (`calculate_slope`)
* `src/backend/services/signals.py`  — the signal-engine state machine (`apply_slope_filter`)
* `src/backend/services/metrics.py`  — performance metrics (`calculate_max_drawdown`,
  `calculate_sharpe_ratio`, `calculate_performance_metrics`, `compute_cagr`)
* `src/backend/services/equity.py`   — the yearly-stats loop of `compute_equity_curve`

Machine floats are modelled as exact rationals (`ℚ`); real-valued library
calls (`sqrt`, `**`) are modelled over `ℝ`.  An undefined (NaN) slope value is
`Option.none`.  Dates are modelled as integer day numbers, so a pandas
`(exit - entry).days` difference becomes integer subtraction.
-/

namespace RsiSlope

/-! ## SlopeCalculator (src/backend/services/slope.py) -/

/-- Least-squares slope of one full window of prices, converted to a
percentage of the window's first price, exactly as the vectorized numpy body
of `calculate_slope` computes it: with `x = 0..w-1`,
`raw = Σ (x-x̄)(y-ȳ) / Σ (x-x̄)²` and
`pct = raw*(w-1)/base*100` when the base price is nonzero, else `0`. -/
def windowSlopePct (ys : List ℚ) (w : ℕ) : ℚ :=
  let xs : List ℚ := (List.range w).map (fun j => (j : ℚ))
  let xMean : ℚ := xs.sum / (w : ℚ)
  let xVar : ℚ := (xs.map (fun x => (x - xMean) ^ 2)).sum
  let yMean : ℚ := ys.sum / (w : ℚ)
  let raw : ℚ := ((xs.zip ys).map (fun p => (p.1 - xMean) * (p.2 - yMean))).sum / xVar
  let base : ℚ := ys.headI
  if base ≠ 0 then raw * ((w : ℚ) - 1) / base * 100 else 0

/-- `calculate_slope` from `src/backend/services/slope.py`: same length as the
input; all-NaN when the series is shorter than the window; otherwise the
first `window - 1` entries are NaN and entry `i ≥ window - 1` is the slope of
the window of `window` consecutive prices ending at `i`. -/
def calculate_slope (prices : List ℚ) (window : ℕ) : List (Option ℚ) :=
  let n := prices.length
  if n < window then List.replicate n none
  else
    (List.range n).map fun i =>
      if i < window - 1 then none
      else some (windowSlopePct ((prices.drop (i + 1 - window)).take window) window)

/-! ## SignalEngine (src/backend/services/signals.py) -/

/-- The `signal_type` parameter: `"Both" | "RSI" | "Slope"`. -/
inductive SignalType
  | Both
  | RSI
  | Slope
deriving DecidableEq, Repr

/-- The `entry_type` of a trade: `"RSI"` (oscillator entry) or `"Slope"`. -/
inductive EntryType
  | RSI
  | Slope
deriving DecidableEq, Repr

/-- One row of the merged dataframe as the engine reads it: its date (day
number), the oscillator `Active` column (`0/1` as a Bool) and the `Close`
price.  The `Slope` column is computed separately by `calculate_slope`. -/
structure Row where
  date : ℤ
  active : Bool
  close : ℚ
deriving DecidableEq, Repr

/-- The `TradeSignal` dataclass of `signals.py`. -/
structure TradeSignal where
  entry_date : ℤ
  exit_date : ℤ
  entry_price : ℚ
  exit_price : ℚ
  return_pct : ℚ
  days_held : ℤ
  entry_type : EntryType
deriving DecidableEq, Repr

/-- The per-row annotation columns the loop writes back
(`Flag`, `Entry_Signal`, `Exit_Signal`, `InTrade`). -/
structure RowOut where
  flagOut : Bool
  entrySignal : Bool
  exitSignal : Bool
  inTrade : Bool
deriving DecidableEq, Repr

/-- The loop's mutable state: `flag`, `in_position`, `entry_price`,
`entry_date`, `entry_type`, `prev_slope_active` and the accumulated
`trades` list. -/
structure EngineState where
  flag : Bool
  in_position : Bool
  entry_price : ℚ
  entry_date : ℤ
  entry_type : EntryType
  prev_slope_active : Bool
  trades : List TradeSignal
deriving DecidableEq, Repr

/-- Initial state of the pass (`flag = 0`, `in_position = False`,
`entry_price = 0.0`, `entry_type = "Slope"`, `prev_slope_active = False`). -/
def initState : EngineState :=
  { flag := false, in_position := false, entry_price := 0, entry_date := 0,
    entry_type := EntryType.Slope, prev_slope_active := false, trades := [] }

/-- The `TradeSignal` recorded at an exit row, from the stored entry state
and this row's close/date. -/
def mkTrade (s : EngineState) (exitPrice : ℚ) (exitDate : ℤ) : TradeSignal :=
  { entry_date := s.entry_date, exit_date := exitDate,
    entry_price := s.entry_price, exit_price := exitPrice,
    return_pct := (exitPrice - s.entry_price) / s.entry_price * 100,
    days_held := exitDate - s.entry_date,
    entry_type := s.entry_type }

/-- One iteration of the `for i in range(n)` loop of `apply_slope_filter`.
A NaN slope row propagates the flag and changes nothing else.  On a defined
slope row the oscillator latch runs first (`flag1`, `rsi_just_activated`),
then the mode-specific entry/exit branch, then the completed trade is
recorded unless `entry_price == 0`. -/
def step (thr : ℚ) (mode : SignalType) (s : EngineState) (r : Row) (slope? : Option ℚ) :
    EngineState × RowOut :=
  match slope? with
  | none => (s, { flagOut := s.flag, entrySignal := false, exitSignal := false, inTrade := false })
  | some slope =>
    let slope_active : Bool := decide (thr < slope)
    let slope_just_activated : Bool := (!s.prev_slope_active) && slope_active
    let slope_just_deactivated : Bool := s.prev_slope_active && (!slope_active)
    let rsi_just_activated : Bool := r.active && (!s.flag)
    let flag1 : Bool := s.flag || r.active
    match mode with
    | SignalType.Both =>
      if (!s.in_position) && rsi_just_activated && slope_active then
        ({ s with flag := flag1, in_position := true, entry_price := r.close,
                  entry_date := r.date, entry_type := EntryType.RSI,
                  prev_slope_active := slope_active },
         { flagOut := flag1, entrySignal := true, exitSignal := false, inTrade := true })
      else if (!s.in_position) && flag1 && slope_just_activated then
        ({ s with flag := flag1, in_position := true, entry_price := r.close,
                  entry_date := r.date, entry_type := EntryType.Slope,
                  prev_slope_active := slope_active },
         { flagOut := flag1, entrySignal := true, exitSignal := false, inTrade := true })
      else if s.in_position then
        if slope_just_deactivated then
          ({ s with flag := false, in_position := false, prev_slope_active := slope_active,
                    trades := if s.entry_price ≠ 0 then s.trades ++ [mkTrade s r.close r.date]
                              else s.trades },
           { flagOut := false, entrySignal := false, exitSignal := true, inTrade := false })
        else
          ({ s with flag := flag1, prev_slope_active := slope_active },
           { flagOut := flag1, entrySignal := false, exitSignal := false, inTrade := true })
      else
        ({ s with flag := flag1, prev_slope_active := slope_active },
         { flagOut := flag1, entrySignal := false, exitSignal := false, inTrade := false })
    | SignalType.RSI =>
      if (!s.in_position) && r.active then
        ({ s with flag := flag1, in_position := true, entry_price := r.close,
                  entry_date := r.date, entry_type := EntryType.RSI,
                  prev_slope_active := slope_active },
         { flagOut := flag1, entrySignal := true, exitSignal := false, inTrade := true })
      else if s.in_position then
        if !r.active then
          ({ s with flag := flag1, in_position := false, prev_slope_active := slope_active,
                    trades := if s.entry_price ≠ 0 then s.trades ++ [mkTrade s r.close r.date]
                              else s.trades },
           { flagOut := flag1, entrySignal := false, exitSignal := true, inTrade := false })
        else
          ({ s with flag := flag1, prev_slope_active := slope_active },
           { flagOut := flag1, entrySignal := false, exitSignal := false, inTrade := true })
      else
        ({ s with flag := flag1, prev_slope_active := slope_active },
         { flagOut := flag1, entrySignal := false, exitSignal := false, inTrade := false })
    | SignalType.Slope =>
      if (!s.in_position) && slope_active then
        ({ s with flag := flag1, in_position := true, entry_price := r.close,
                  entry_date := r.date, entry_type := EntryType.Slope,
                  prev_slope_active := slope_active },
         { flagOut := flag1, entrySignal := true, exitSignal := false, inTrade := true })
      else if s.in_position then
        if !slope_active then
          ({ s with flag := flag1, in_position := false, prev_slope_active := slope_active,
                    trades := if s.entry_price ≠ 0 then s.trades ++ [mkTrade s r.close r.date]
                              else s.trades },
           { flagOut := flag1, entrySignal := false, exitSignal := true, inTrade := false })
        else
          ({ s with flag := flag1, prev_slope_active := slope_active },
           { flagOut := flag1, entrySignal := false, exitSignal := false, inTrade := true })
      else
        ({ s with flag := flag1, prev_slope_active := slope_active },
         { flagOut := flag1, entrySignal := false, exitSignal := false, inTrade := false })

/-- The forward pass: fold `step` over the (row, slope) pairs, collecting the
final state and the per-row annotation outputs. -/
def runRows (thr : ℚ) (mode : SignalType) :
    EngineState → List (Row × Option ℚ) → EngineState × List RowOut
  | s, [] => (s, [])
  | s, p :: ps =>
    let so := step thr mode s p.1 p.2
    let rest := runRows thr mode so.1 ps
    (rest.1, so.2 :: rest.2)

/-- The merged rows paired with their computed `Slope` column. -/
def pairRows (rows : List Row) (window : ℕ) : List (Row × Option ℚ) :=
  rows.zip (calculate_slope (rows.map Row.close) window)

/-- `apply_slope_filter` from `src/backend/services/signals.py`, on rows that
are already merged and date-sorted: compute the slope column, then run the
single forward pass.  `neg_threshold` is accepted but unused, as in the
source.  Returns the final engine state (whose `trades` field is the trade
list) and the annotation columns. -/
def apply_slope_filter (rows : List Row) (slope_window : ℕ)
    (pos_threshold neg_threshold : ℚ) (signal_type : SignalType) :
    EngineState × List RowOut :=
  runRows pos_threshold signal_type initState (pairRows rows slope_window)

/-- The engine state just before row `i` of a pass started from `s`. -/
def stateAt (thr : ℚ) (mode : SignalType) (s : EngineState)
    (inputs : List (Row × Option ℚ)) (i : ℕ) : EngineState :=
  (runRows thr mode s (inputs.take i)).1

/-! ## Concrete data of the spec's worked example -/

/-- The spec example's price series. -/
def c1Prices : List ℚ :=
  [100, 102, 104, 106, 108, 110, 112, 114, 110, 108, 106, 104, 102, 100]

/-- The example's merged rows with the oscillator active at index `k` only;
dates are the row indices. -/
def c1Rows (k : ℕ) : List Row :=
  (List.range 14).map fun (j : ℕ) =>
    { date := (j : ℤ), active := j == k, close := c1Prices.getD j 0 }

/-- Rows for exercising a slope-type entry: flat price, oscillator pulse at
index 1 while the slope is still at zero, then a price rise that activates
the slope at index 2. -/
def c3Rows : List Row :=
  [{ date := 0, active := false, close := 100 },
   { date := 1, active := true,  close := 100 },
   { date := 2, active := false, close := 104 },
   { date := 3, active := false, close := 104 }]

/-! ## MetricsEngine (src/backend/services/metrics.py) -/

/-- `np.cumprod` scan with accumulator `a`. -/
def scanMul (a : ℚ) : List ℚ → List ℚ
  | [] => []
  | x :: xs => (a * x) :: scanMul (a * x) xs

/-- `np.cumprod`. -/
def cumprod (l : List ℚ) : List ℚ := scanMul 1 l

/-- `np.maximum.accumulate` scan with accumulator `a`. -/
def scanMax (a : ℚ) : List ℚ → List ℚ
  | [] => []
  | x :: xs => max a x :: scanMax (max a x) xs

/-- `np.maximum.accumulate`. -/
def cummax : List ℚ → List ℚ
  | [] => []
  | x :: xs => x :: scanMax x xs

/-- `np.min` of a nonempty list (`0` on the empty list, never used there). -/
def listMin : List ℚ → ℚ
  | [] => 0
  | x :: xs => xs.foldl min x

/-- `max` of a nonempty list (`0` on the empty list, never used there). -/
def listMax : List ℚ → ℚ
  | [] => 0
  | x :: xs => xs.foldl max x

/-- `min` of a nonempty list of dates. -/
def listMinInt : List ℤ → ℤ
  | [] => 0
  | x :: xs => xs.foldl min x

/-- `max` of a nonempty list of dates. -/
def listMaxInt : List ℤ → ℤ
  | [] => 0
  | x :: xs => xs.foldl max x

/-- The equity curve `np.cumprod(1 + returns / 100)` built inside
`calculate_max_drawdown`. -/
def ddEquity (returns : List ℚ) : List ℚ :=
  cumprod (returns.map (fun r => 1 + r / 100))

/-- The drawdown series `(equity / running_max - 1) * 100`. -/
def ddSeries (returns : List ℚ) : List ℚ :=
  ((ddEquity returns).zip (cummax (ddEquity returns))).map
    (fun p => (p.1 / p.2 - 1) * 100)

/-- `calculate_max_drawdown` from `src/backend/services/metrics.py`. -/
def calculate_max_drawdown (returns : List ℚ) : ℚ :=
  if returns = [] then 0 else listMin (ddSeries returns)

/-- `np.mean`. -/
def listMeanQ (l : List ℚ) : ℚ := l.sum / (l.length : ℚ)

/-- Population variance, `mean((x - mean)^2)` (numpy's default `ddof = 0`). -/
def listVarQ (l : List ℚ) : ℚ :=
  (l.map (fun r => (r - listMeanQ l) ^ 2)).sum / (l.length : ℚ)

/-- `np.std` over the reals. -/
noncomputable def stdR (l : List ℚ) : ℝ := Real.sqrt ((listVarQ l : ℚ) : ℝ)

/-- Python's `round(x, 2)`, modelled as mathematical rounding to 2 decimal
places. -/
noncomputable def round2R (x : ℝ) : ℝ := ((round (x * 100) : ℤ) : ℝ) / 100

/-- `calculate_sharpe_ratio` from `metrics.py` (annualized, trade returns
treated as daily observations, exactly as in the source). -/
noncomputable def calculate_sharpe_ratio (returns : List ℚ) (risk_free_rate : ℚ) : ℝ :=
  if returns.length = 0 then 0
  else if stdR returns = 0 then 0
  else (((listMeanQ returns : ℚ) : ℝ) / 100 - ((risk_free_rate : ℚ) : ℝ) / 252) *
    Real.sqrt 252 / (stdR returns / 100)

/-- The `PerformanceMetrics` dataclass. -/
structure PerformanceMetrics where
  total_return : ℝ
  win_rate : ℝ
  max_drawdown : ℝ
  num_trades : ℕ
  time_in_market : ℝ
  avg_days_held : ℝ
  avg_return : ℝ
  sharpe_ratio : ℝ
  volatility : ℝ

/-- `calculate_performance_metrics` from `metrics.py`: `None` on an empty
trade list, otherwise all the aggregate statistics, rounded at the output
boundary. -/
noncomputable def calculate_performance_metrics (trades : List TradeSignal) :
    Option PerformanceMetrics :=
  match trades with
  | [] => none
  | t :: ts =>
    let tl := t :: ts
    let returns : List ℚ := tl.map TradeSignal.return_pct
    let daysHeld : List ℤ := tl.map TradeSignal.days_held
    let num_trades : ℕ := tl.length
    let win_rate : ℚ :=
      (((returns.filter (fun r => decide (0 < r))).length : ℚ) / (num_trades : ℚ)) * 100
    let date_range : ℤ :=
      listMaxInt (tl.map TradeSignal.exit_date) - listMinInt (tl.map TradeSignal.entry_date)
    let tim : ℚ :=
      if 0 < date_range then ((daysHeld.sum : ℚ) / (date_range : ℚ)) * 100 else 0
    some
      { total_return := round2R ((returns.sum : ℚ) : ℝ),
        win_rate := round2R ((win_rate : ℚ) : ℝ),
        max_drawdown := round2R ((calculate_max_drawdown returns : ℚ) : ℝ),
        num_trades := num_trades,
        time_in_market := round2R ((tim : ℚ) : ℝ),
        avg_days_held := round2R ((((daysHeld.sum : ℚ) / (num_trades : ℚ)) : ℚ) : ℝ),
        avg_return := round2R ((listMeanQ returns : ℚ) : ℝ),
        sharpe_ratio := round2R (calculate_sharpe_ratio returns (1 / 50)),
        volatility := round2R (stdR returns) }

/-- `compute_cagr` from `metrics.py`, with the source's `total_multiplier`
local (`1 + total_return_pct / 100`) inlined. -/
noncomputable def compute_cagr (total_return_pct : ℚ) (years : ℚ) : ℝ :=
  if years ≤ 0 then 0
  else if (1 + total_return_pct / 100 : ℚ) ≤ 0 then -100
  else
    round2R ((Real.rpow (((1 + total_return_pct / 100 : ℚ)) : ℝ)
      (1 / ((years : ℚ) : ℝ)) - 1) * 100)

/-! ## EquityCurveBuilder yearly stats (src/backend/services/equity.py) -/

/-- Python's `round(x, 2)` over exact rationals. -/
def round2q (x : ℚ) : ℚ := ((round (x * 100) : ℤ) : ℚ) / 100

/-- One row of the equity-curve dataframe as the yearly-stats loop reads it:
the calendar year of its date, its `equity` and its `drawdown_pct`. -/
structure EquityPoint where
  year : ℤ
  equity : ℚ
  drawdown_pct : ℚ
deriving DecidableEq, Repr

/-- One entry of `compute_equity_curve`'s `yearly_stats` output. -/
structure EquityYearStat where
  year : ℤ
  profit_pct : ℚ
  max_drawdown_pct : ℚ
  start_equity : ℚ
  end_equity : ℚ
deriving DecidableEq, Repr

/-- Sorted insertion, for modelling pandas `groupby`'s ascending key order. -/
def insertSorted (y : ℤ) : List ℤ → List ℤ
  | [] => [y]
  | x :: xs => if y ≤ x then y :: x :: xs else x :: insertSorted y xs

/-- Insertion sort of the year keys. -/
def sortInts : List ℤ → List ℤ
  | [] => []
  | x :: xs => insertSorted x (sortInts xs)

/-- Collapse adjacent duplicates of a sorted list: the distinct group keys. -/
def dedupAdj : List ℤ → List ℤ
  | [] => []
  | [x] => [x]
  | x :: y :: xs => if x = y then dedupAdj (y :: xs) else x :: dedupAdj (y :: xs)

/-- The year-`y` group of the equity curve, in dataframe order. -/
def yearGroup (pts : List EquityPoint) (y : ℤ) : List EquityPoint :=
  pts.filter (fun p => p.year == y)

/-- The yearly-stats loop body for one year: `None` (skip) when the group has
fewer than 2 data points, else profit from the year's first and last equity
values (0 when the start is not positive), max of the year's drawdowns, all
rounded to 2 decimals. -/
def yearStatOf (pts : List EquityPoint) (y : ℤ) : Option EquityYearStat :=
  let g := yearGroup pts y
  if g.length < 2 then none
  else
    let start_equity : ℚ := ((g.head?).getD { year := 0, equity := 0, drawdown_pct := 0 }).equity
    let end_equity : ℚ := ((g.getLast?).getD { year := 0, equity := 0, drawdown_pct := 0 }).equity
    let profit_pct : ℚ :=
      if 0 < start_equity then (end_equity / start_equity - 1) * 100 else 0
    some
      { year := y, profit_pct := round2q profit_pct,
        max_drawdown_pct := round2q (listMax (g.map EquityPoint.drawdown_pct)),
        start_equity := round2q start_equity, end_equity := round2q end_equity }

/-- The `yearly_stats` computation of `compute_equity_curve`
(`equity.py` lines 176–195): iterate the distinct years in ascending order
(as pandas `groupby` does), skipping years with fewer than 2 points. -/
def equityYearlyStats (pts : List EquityPoint) : List EquityYearStat :=
  (dedupAdj (sortInts (pts.map EquityPoint.year))).filterMap (yearStatOf pts)

/-! ## Theorems -/

/-- The state before row 0 is the starting state. -/
theorem stateAt_zero (thr : ℚ) (mode : SignalType) (s : EngineState)
    (inputs : List (Row × Option ℚ)) : stateAt thr mode s inputs 0 = s := by
  simp [stateAt, runRows]

/-- Unfolding `stateAt` along a cons cell. -/
theorem stateAt_cons (thr : ℚ) (mode : SignalType) (s : EngineState)
    (q : Row × Option ℚ) (ps : List (Row × Option ℚ)) (i : ℕ) :
    stateAt thr mode s (q :: ps) (i + 1) =
      stateAt thr mode (step thr mode s q.1 q.2).1 ps i := by
  simp [stateAt, runRows]

/-- Row `i` of a pass is produced by one `step` from the state before row
`i`, and the state before row `i + 1` is that step's resulting state. -/
theorem runRows_getElem (thr : ℚ) (mode : SignalType)
    (inputs : List (Row × Option ℚ)) (s : EngineState) (i : ℕ)
    (p : Row × Option ℚ) (hp : inputs[i]? = some p) :
    ((runRows thr mode s inputs).2)[i]? =
      some (step thr mode (stateAt thr mode s inputs i) p.1 p.2).2 ∧
    stateAt thr mode s inputs (i + 1) =
      (step thr mode (stateAt thr mode s inputs i) p.1 p.2).1 := by
  induction inputs generalizing s i with
  | nil => simp at hp
  | cons q ps ih =>
    cases i with
    | zero =>
      simp only [List.getElem?_cons_zero, Option.some_inj] at hp
      subst hp
      constructor
      · simp [runRows, stateAt_zero]
      · rw [stateAt_cons, stateAt_zero, stateAt_zero]
    | succ i =>
      simp only [List.getElem?_cons_succ] at hp
      have h := ih (step thr mode s q.1 q.2).1 i hp
      constructor
      · simpa [runRows, stateAt_cons] using h.1
      · rw [stateAt_cons, stateAt_cons]
        exact h.2

/-- One BOTH-mode step on a defined-slope row: the entry/exit signals are
characterized exactly by the claim's conditions, and an exit resets the
flag. -/
theorem step_both_iff (thr : ℚ) (s : EngineState) (r : Row) (v : ℚ) :
    ((step thr SignalType.Both s r (some v)).2.entrySignal = true ↔
      s.in_position = false ∧
        ((r.active = true ∧ s.flag = false ∧ thr < v) ∨
         ((s.flag = true ∨ r.active = true) ∧ s.prev_slope_active = false ∧ thr < v))) ∧
    ((step thr SignalType.Both s r (some v)).2.exitSignal = true ↔
      s.in_position = true ∧ s.prev_slope_active = true ∧ ¬ thr < v) ∧
    ((step thr SignalType.Both s r (some v)).2.exitSignal = true →
      ((step thr SignalType.Both s r (some v)).1).flag = false) := by
  simp only [step]
  split_ifs with h1 h2 h3 h4 <;>
    simp_all [Bool.and_eq_true, Bool.or_eq_true, Bool.not_eq_true', decide_eq_true_eq]

/-- One BOTH-mode step on a defined-slope row: entry case (a) — oscillator
just activated with the slope active — fires an entry that records entry
type `"RSI"`; entry case (b) — case (a) not applicable, (latched) flag set
and slope just activated — fires an entry that records entry type
`"Slope"`. -/
theorem step_both_entry_types (thr : ℚ) (s : EngineState) (r : Row) (v : ℚ) :
    (s.in_position = false ∧ (r.active = true ∧ s.flag = false) ∧ thr < v →
      (step thr SignalType.Both s r (some v)).2.entrySignal = true ∧
      ((step thr SignalType.Both s r (some v)).1).entry_type = EntryType.RSI) ∧
    (s.in_position = false ∧ ¬ ((r.active = true ∧ s.flag = false) ∧ thr < v) ∧
        (s.flag = true ∨ r.active = true) ∧ s.prev_slope_active = false ∧ thr < v →
      (step thr SignalType.Both s r (some v)).2.entrySignal = true ∧
      ((step thr SignalType.Both s r (some v)).1).entry_type = EntryType.Slope) := by
  simp only [step]
  split_ifs with h1 h2 h3 h4 <;>
    simp only [Bool.and_eq_true, Bool.or_eq_true, Bool.not_eq_true',
      decide_eq_true_eq] at * <;>
    constructor <;> intro h <;> simp_all <;> first | tauto | linarith

/-- **C4.** For every price series and window `w ≥ 2`, `calculate_slope`
returns a list of the same length as the input, whose first `w - 1` entries
are undefined (`none`) and whose every entry at index `i ≥ w - 1` is
defined. -/
theorem c4_slope_shape (prices : List ℚ) (w : ℕ) (_hw : 2 ≤ w) :
    (calculate_slope prices w).length = prices.length ∧
    (∀ i : ℕ, i < prices.length → i < w - 1 →
      (calculate_slope prices w)[i]? = some none) ∧
    (∀ i : ℕ, i < prices.length → w - 1 ≤ i →
      ∃ q : ℚ, (calculate_slope prices w)[i]? = some (some q)) := by
  unfold calculate_slope
  by_cases h : prices.length < w
  · simp only [if_pos h]
    refine ⟨List.length_replicate _ _, ?_, ?_⟩
    · intro i hi _
      simp [List.getElem?_replicate, hi]
    · intro i hi hwi
      omega
  · simp only [if_neg h]
    refine ⟨by simp, ?_, ?_⟩
    · intro i hi hiw
      rw [List.getElem?_map, List.getElem?_range hi]
      simp [hiw]
    · intro i hi hwi
      rw [List.getElem?_map, List.getElem?_range hi]
      have hif : ¬ i < w - 1 := Nat.not_lt.mpr hwi
      exact ⟨windowSlopePct ((prices.drop (i + 1 - w)).take w) w, by simp [hif]⟩

/-- Witness for C4 at `prices = [1,2,3]`, `w = 2`: index 0 is undefined and
index 1 is the first defined slope. -/
theorem c4_slope_shape_witness :
    (2 ≤ 2) ∧ (calculate_slope [1, 2, 3] 2).length = ([1, 2, 3] : List ℚ).length ∧
      (calculate_slope [(1 : ℚ), 2, 3] 2)[0]? = some none :=
  ⟨by norm_num, (c4_slope_shape [1, 2, 3] 2 (by norm_num)).1,
    (c4_slope_shape [1, 2, 3] 2 (by norm_num)).2.1 0 (by norm_num) (by norm_num)⟩

/-- **C1, counterexample.** On the spec example's input — oscillator active at
index 0 only, `slope_window = 5`, `pos_threshold = 0`, mode BOTH — the engine
produces NO trade at all: the activation at index 0 falls on a row whose
slope is still undefined, which the loop skips before the oscillator latch,
so the flag is never set. -/
theorem c1_counterexample :
    (apply_slope_filter (c1Rows 0) 5 0 0 SignalType.Both).1.trades = [] := by
  with_unfolding_all rfl

/-- **C1, amended.** Same prices, window and threshold, but with the
oscillator active at index 4 — the first row with a defined slope — the BOTH
pass produces exactly one trade, of entry type `"RSI"` (oscillator), entered
at index 4 at close 108, and exited at index 9, the first row after the price
peak at index 7 whose slope is non-positive.  The second conjunct lists the
whole slope column: indices 0–3 undefined, 4–8 positive, 9 the first
non-positive slope. -/
theorem c1_amended :
    (apply_slope_filter (c1Rows 4) 5 0 0 SignalType.Both).1.trades =
      [{ entry_date := 4, exit_date := 9, entry_price := 108, exit_price := 108,
         return_pct := 0, days_held := 5, entry_type := EntryType.RSI }] ∧
    calculate_slope c1Prices 5 =
      [none, none, none, none, some 8, some (400 / 51), some (100 / 13),
       some (400 / 53), some (80 / 27), some (-24 / 11), some (-45 / 7),
       some (-160 / 19), some (-80 / 11), some (-200 / 27)] := by
  constructor <;> with_unfolding_all rfl

/-- **C2.** In BOTH mode, at every row `i` of the pass whose slope is defined
(value `v`), with `s` the engine state before the row and `o` the row's
annotation output: an entry fires iff the engine is not in a position and
either (a) the oscillator just activated this row (`active` with the flag
still clear) and the slope is active, or (b) the (just-latched) flag is set
and the slope just transitioned to active; an exit fires iff the engine is in
a position and the slope just transitioned from active to inactive; an exit
resets the flag to false; and the entry types are as the claim attributes
them: an entry through case (a) records entry type `"RSI"` (oscillator),
while an entry through case (b) — when case (a) does not apply — records
entry type `"Slope"` (read off the engine's `entry_type` right after the
row, which is the type the trade opened there carries). -/
theorem c2_both_row_iff (rows : List Row) (w : ℕ) (thr neg : ℚ) (i : ℕ)
    (p : Row × Option ℚ) (hp : (pairRows rows w)[i]? = some p)
    (v : ℚ) (hv : p.2 = some v) (s : EngineState)
    (hs : s = stateAt thr SignalType.Both initState (pairRows rows w) i)
    (o : RowOut)
    (ho : ((apply_slope_filter rows w thr neg SignalType.Both).2)[i]? = some o) :
    (o.entrySignal = true ↔
      s.in_position = false ∧
        ((p.1.active = true ∧ s.flag = false ∧ thr < v) ∨
         ((s.flag = true ∨ p.1.active = true) ∧ s.prev_slope_active = false ∧ thr < v))) ∧
    (o.exitSignal = true ↔
      s.in_position = true ∧ s.prev_slope_active = true ∧ ¬ thr < v) ∧
    (o.exitSignal = true →
      (stateAt thr SignalType.Both initState (pairRows rows w) (i + 1)).flag = false) ∧
    (s.in_position = false ∧ (p.1.active = true ∧ s.flag = false) ∧ thr < v →
      o.entrySignal = true ∧
      (stateAt thr SignalType.Both initState (pairRows rows w) (i + 1)).entry_type =
        EntryType.RSI) ∧
    (s.in_position = false ∧ ¬ ((p.1.active = true ∧ s.flag = false) ∧ thr < v) ∧
        (s.flag = true ∨ p.1.active = true) ∧ s.prev_slope_active = false ∧ thr < v →
      o.entrySignal = true ∧
      (stateAt thr SignalType.Both initState (pairRows rows w) (i + 1)).entry_type =
        EntryType.Slope) := by
  subst hs
  have h := runRows_getElem thr SignalType.Both (pairRows rows w) initState i p hp
  unfold apply_slope_filter at ho
  rw [h.1, Option.some_inj] at ho
  subst ho
  rw [h.2, hv]
  exact ⟨(step_both_iff thr _ p.1 v).1, (step_both_iff thr _ p.1 v).2.1,
    (step_both_iff thr _ p.1 v).2.2, (step_both_entry_types thr _ p.1 v).1,
    (step_both_entry_types thr _ p.1 v).2⟩

/-- Witness for C2 on the worked example with the oscillator active at
index 4: at row 4 (state still initial, slope `8`) the output row is an
entry, and the characterization — including the entry-type attributions —
holds there. -/
theorem c2_both_row_iff_witness :
    (({ flagOut := true, entrySignal := true, exitSignal := false, inTrade := true } :
        RowOut).entrySignal = true ↔
      initState.in_position = false ∧
        (((Row.mk 4 true 108).active = true ∧ initState.flag = false ∧ (0 : ℚ) < 8) ∨
         ((initState.flag = true ∨ (Row.mk 4 true 108).active = true) ∧
           initState.prev_slope_active = false ∧ (0 : ℚ) < 8))) ∧
    (({ flagOut := true, entrySignal := true, exitSignal := false, inTrade := true } :
        RowOut).exitSignal = true ↔
      initState.in_position = true ∧ initState.prev_slope_active = true ∧ ¬ (0 : ℚ) < 8) ∧
    (({ flagOut := true, entrySignal := true, exitSignal := false, inTrade := true } :
        RowOut).exitSignal = true →
      (stateAt 0 SignalType.Both initState (pairRows (c1Rows 4) 5) 5).flag = false) ∧
    (initState.in_position = false ∧
        ((Row.mk 4 true 108).active = true ∧ initState.flag = false) ∧ (0 : ℚ) < 8 →
      ({ flagOut := true, entrySignal := true, exitSignal := false, inTrade := true } :
        RowOut).entrySignal = true ∧
      (stateAt 0 SignalType.Both initState (pairRows (c1Rows 4) 5) 5).entry_type =
        EntryType.RSI) ∧
    (initState.in_position = false ∧
        ¬ (((Row.mk 4 true 108).active = true ∧ initState.flag = false) ∧ (0 : ℚ) < 8) ∧
        (initState.flag = true ∨ (Row.mk 4 true 108).active = true) ∧
        initState.prev_slope_active = false ∧ (0 : ℚ) < 8 →
      ({ flagOut := true, entrySignal := true, exitSignal := false, inTrade := true } :
        RowOut).entrySignal = true ∧
      (stateAt 0 SignalType.Both initState (pairRows (c1Rows 4) 5) 5).entry_type =
        EntryType.Slope) :=
  c2_both_row_iff (c1Rows 4) 5 0 0 4 (Row.mk 4 true 108, some 8)
    (by with_unfolding_all rfl) 8 rfl initState (by with_unfolding_all rfl)
    { flagOut := true, entrySignal := true, exitSignal := false, inTrade := true }
    (by with_unfolding_all rfl)

/-- One BOTH-mode step that fires an entry and records entry type `"Slope"`
can only happen with the flag already set before the row. -/
theorem step_both_slope_entry (thr : ℚ) (s : EngineState) (r : Row) (v : ℚ)
    (he : (step thr SignalType.Both s r (some v)).2.entrySignal = true)
    (ht : ((step thr SignalType.Both s r (some v)).1).entry_type = EntryType.Slope) :
    s.flag = true := by
  simp only [step] at he ht
  split_ifs at he ht with h1 h2
  simp only [Bool.and_eq_true, Bool.or_eq_true, Bool.not_eq_true',
    decide_eq_true_eq] at h1 h2
  rcases h2 with ⟨⟨hpos, hfa⟩, hprev, hv⟩
  rcases hfa with hf | ha
  · exact hf
  · cases hfq : s.flag with
    | true => rfl
    | false => exact absurd ⟨⟨hpos, ha, hfq⟩, hv⟩ h1

/-- **C3.** In BOTH mode, every slope-type entry is gated by the flag: if row
`i` fires an entry and the engine's `entry_type` right after the row is
`"Slope"`, then the flag was already true in the state before the row — a
prior oscillator activation had been latched and not yet cleared by an
exit. -/
theorem c3_slope_entry_flag (rows : List Row) (w : ℕ) (thr neg : ℚ) (i : ℕ)
    (p : Row × Option ℚ) (hp : (pairRows rows w)[i]? = some p)
    (v : ℚ) (hv : p.2 = some v) (s : EngineState)
    (hs : s = stateAt thr SignalType.Both initState (pairRows rows w) i)
    (o : RowOut)
    (ho : ((apply_slope_filter rows w thr neg SignalType.Both).2)[i]? = some o)
    (he : o.entrySignal = true)
    (ht : (stateAt thr SignalType.Both initState (pairRows rows w) (i + 1)).entry_type =
      EntryType.Slope) :
    s.flag = true := by
  subst hs
  have h := runRows_getElem thr SignalType.Both (pairRows rows w) initState i p hp
  unfold apply_slope_filter at ho
  rw [h.1, Option.some_inj] at ho
  subst ho
  rw [h.2] at ht
  rw [hv] at he ht
  exact step_both_slope_entry thr _ p.1 v he ht

/-- Witness for C3 on `c3Rows`: the entry at row 2 has entry type `"Slope"`,
and the state before the row indeed had the flag set (by the oscillator pulse
at row 1). -/
theorem c3_slope_entry_flag_witness :
    ({ flag := true, in_position := false, entry_price := 0, entry_date := 0,
       entry_type := EntryType.Slope, prev_slope_active := false, trades := [] } :
      EngineState).flag = true :=
  c3_slope_entry_flag c3Rows 2 0 0 2 (Row.mk 2 false 104, some 4)
    (by with_unfolding_all rfl) 4 rfl
    { flag := true, in_position := false, entry_price := 0, entry_date := 0,
      entry_type := EntryType.Slope, prev_slope_active := false, trades := [] }
    (by with_unfolding_all rfl)
    { flagOut := true, entrySignal := true, exitSignal := false, inTrade := true }
    (by with_unfolding_all rfl) (by with_unfolding_all rfl) (by with_unfolding_all rfl)

/-- **C5.** In every mode, a row whose slope is undefined is skipped before
the oscillator latch runs: the engine state after the row equals the state
before it (so an oscillator activation on such a row never sets the flag),
and the row's annotation output just propagates the prior flag with no
entry, exit or in-trade mark. -/
theorem c5_undefined_slope_skip (rows : List Row) (w : ℕ) (thr neg : ℚ)
    (mode : SignalType) (i : ℕ)
    (p : Row × Option ℚ) (hp : (pairRows rows w)[i]? = some p)
    (hnan : p.2 = none) (s : EngineState)
    (hs : s = stateAt thr mode initState (pairRows rows w) i) :
    stateAt thr mode initState (pairRows rows w) (i + 1) = s ∧
    ((apply_slope_filter rows w thr neg mode).2)[i]? =
      some { flagOut := s.flag, entrySignal := false, exitSignal := false,
             inTrade := false } := by
  subst hs
  have h := runRows_getElem thr mode (pairRows rows w) initState i p hp
  constructor
  · rw [h.2, hnan]
    rfl
  · unfold apply_slope_filter
    rw [h.1, hnan]
    rfl

/-- Witness for C5 at row 0 of the worked example (oscillator active there,
slope still undefined): the state is unchanged and the output row is
all-clear. -/
theorem c5_undefined_slope_skip_witness :
    stateAt 0 SignalType.Both initState (pairRows (c1Rows 0) 5) 1 = initState ∧
    ((apply_slope_filter (c1Rows 0) 5 0 0 SignalType.Both).2)[0]? =
      some { flagOut := initState.flag, entrySignal := false, exitSignal := false,
             inTrade := false } :=
  c5_undefined_slope_skip (c1Rows 0) 5 0 0 SignalType.Both 0
    (Row.mk 0 true 100, none) (by with_unfolding_all rfl) rfl initState
    (by with_unfolding_all rfl)

/-- **C6.** In every mode, if `entry_price` is `0` in the state a step starts
from, the step appends no `TradeSignal`: a trade that would complete at a
zero entry price is discarded (and non-exit rows append nothing anyway). -/
theorem c6_zero_entry_price_discard (thr : ℚ) (mode : SignalType)
    (s : EngineState) (r : Row) (sl : Option ℚ) (h : s.entry_price = 0) :
    ((step thr mode s r sl).1).trades = s.trades := by
  cases sl with
  | none => rfl
  | some v =>
    cases mode <;> simp only [step] <;> split_ifs <;> simp_all

/-- Lengths of the `np.cumprod` scan. -/
theorem scanMul_length (a : ℚ) (l : List ℚ) : (scanMul a l).length = l.length := by
  induction l generalizing a with
  | nil => rfl
  | cons x xs ih => simp [scanMul, ih]

/-- Lengths of the `np.maximum.accumulate` scan. -/
theorem scanMax_length (a : ℚ) (l : List ℚ) : (scanMax a l).length = l.length := by
  induction l generalizing a with
  | nil => rfl
  | cons x xs ih => simp [scanMax, ih]

/-- `cummax` preserves length. -/
theorem cummax_length (l : List ℚ) : (cummax l).length = l.length := by
  cases l with
  | nil => rfl
  | cons x xs => simp [cummax, scanMax_length]

/-- The drawdown equity curve has one point per return. -/
theorem ddEquity_length (rs : List ℚ) : (ddEquity rs).length = rs.length := by
  simp [ddEquity, cumprod, scanMul_length]

/-- The drawdown series has one point per return. -/
theorem ddSeries_length (rs : List ℚ) : (ddSeries rs).length = rs.length := by
  simp [ddSeries, ddEquity_length, cummax_length]

/-- A left fold by `min` lands on the seed or on a list element. -/
theorem foldl_min_choice (xs : List ℚ) (a : ℚ) :
    xs.foldl min a = a ∨ xs.foldl min a ∈ xs := by
  induction xs generalizing a with
  | nil => left; rfl
  | cons x xs ih =>
    rcases ih (min a x) with h | h
    · rcases min_choice a x with hm | hm
      · left; rw [List.foldl_cons, h, hm]
      · right; rw [List.foldl_cons, h, hm]; exact List.mem_cons_self x xs
    · right; exact List.mem_cons_of_mem x h

/-- A left fold by `min` is at most its seed. -/
theorem foldl_min_le_init (xs : List ℚ) (a : ℚ) : xs.foldl min a ≤ a := by
  induction xs generalizing a with
  | nil => exact le_refl a
  | cons x xs ih => exact le_trans (ih (min a x)) (min_le_left a x)

/-- A left fold by `min` is at most every list element. -/
theorem foldl_min_le_mem (xs : List ℚ) (a : ℚ) (d : ℚ) (hd : d ∈ xs) :
    xs.foldl min a ≤ d := by
  induction xs generalizing a with
  | nil => simp at hd
  | cons x xs ih =>
    rcases List.mem_cons.mp hd with rfl | h
    · exact le_trans (foldl_min_le_init xs (min a d)) (min_le_right a d)
    · exact ih (min a x) h

/-- Closed form of the `np.cumprod` scan: entry `i` is the seed times the
product of the first `i + 1` elements. -/
theorem scanMul_getElem (l : List ℚ) (a : ℚ) (i : ℕ) (h : i < l.length) :
    (scanMul a l)[i]? = some (a * ((l.take (i + 1)).prod)) := by
  induction l generalizing a i with
  | nil => simp at h
  | cons x xs ih =>
    cases i with
    | zero => simp [scanMul]
    | succ i =>
      simp only [scanMul, List.getElem?_cons_succ]
      rw [ih (a * x) i (by simpa using h)]
      simp [mul_assoc]

/-- Closed form of the `np.maximum.accumulate` scan. -/
theorem scanMax_getElem (l : List ℚ) (a : ℚ) (i : ℕ) (h : i < l.length) :
    (scanMax a l)[i]? = some ((l.take (i + 1)).foldl max a) := by
  induction l generalizing a i with
  | nil => simp at h
  | cons x xs ih =>
    cases i with
    | zero => simp [scanMax]
    | succ i =>
      simp only [scanMax, List.getElem?_cons_succ]
      rw [ih (max a x) i (by simpa using h)]
      simp

/-- Entry `i` of `cummax` is the maximum of the first `i + 1` elements. -/
theorem cummax_getElem (l : List ℚ) (i : ℕ) (h : i < l.length) :
    (cummax l)[i]? = some (listMax (l.take (i + 1))) := by
  cases l with
  | nil => simp at h
  | cons x xs =>
    cases i with
    | zero => simp [cummax, listMax]
    | succ i =>
      simp only [cummax, List.getElem?_cons_succ]
      rw [scanMax_getElem xs x i (by simpa using h)]
      simp [listMax]

/-- The positive branch of `compute_cagr`. -/
theorem compute_cagr_pos (t y : ℚ) (hy : 0 < y) (hm : 0 < 1 + t / 100) :
    compute_cagr t y =
      round2R ((Real.rpow (((1 + t / 100 : ℚ)) : ℝ) (1 / ((y : ℚ) : ℝ)) - 1) * 100) := by
  unfold compute_cagr
  rw [if_neg (not_le.mpr hy), if_neg (not_le.mpr hm)]

/-- `round (100 / 3) = 33`. -/
theorem round_hundred_thirds : round ((100 : ℝ) / 3) = 33 := by
  rw [round_eq]
  have h : (100 : ℝ) / 3 + 1 / 2 = 203 / 6 := by norm_num
  rw [h]
  apply Int.floor_eq_iff.mpr
  constructor <;> norm_num

/-- Witness for C6: an exit row (slope just deactivated while in a position)
with `entry_price = 0` records no trade. -/
theorem c6_zero_entry_price_discard_witness :
    ((step 0 SignalType.Both
        { flag := false, in_position := true, entry_price := 0, entry_date := 7,
          entry_type := EntryType.RSI, prev_slope_active := true, trades := [] }
        (Row.mk 8 false 50) (some (-1))).1).trades = [] :=
  c6_zero_entry_price_discard 0 SignalType.Both
    { flag := false, in_position := true, entry_price := 0, entry_date := 7,
      entry_type := EntryType.RSI, prev_slope_active := true, trades := [] }
    (Row.mk 8 false 50) (some (-1)) rfl

/-- **C7.** `calculate_performance_metrics` of the empty trade list is
undefined (`none`) — not a zero-valued struct and not an error — and of every
non-empty trade list is a defined `PerformanceMetrics` value. -/
theorem c7_empty_metrics :
    calculate_performance_metrics [] = none ∧
    ∀ trades : List TradeSignal, trades ≠ [] →
      ∃ m : PerformanceMetrics, calculate_performance_metrics trades = some m := by
  refine ⟨rfl, ?_⟩
  intro trades h
  cases trades with
  | nil => exact absurd rfl h
  | cons t ts => exact ⟨_, rfl⟩

/-- **C8, counterexample.** At `total_return_pct = 1/3`, `years = 1` the code
returns the 2-decimal rounding `0.33`, while the claim's formula
`(multiplier^(1/years) - 1) * 100` gives exactly `1/3`: the claim omits the
`round(cagr, 2)` applied by the source in the positive branch. -/
theorem c8_cagr_counterexample :
    compute_cagr (1 / 3) 1 = 33 / 100 ∧
    (Real.rpow (((1 + (1 / 3 : ℚ) / 100 : ℚ)) : ℝ) (1 / ((1 : ℚ) : ℝ)) - 1) * 100 = 1 / 3 ∧
    (33 / 100 : ℝ) ≠ 1 / 3 := by
  have hb : (((1 + (1 / 3 : ℚ) / 100 : ℚ)) : ℝ) = 301 / 300 := by
    push_cast
    norm_num
  have hform :
      (Real.rpow (((1 + (1 / 3 : ℚ) / 100 : ℚ)) : ℝ) (1 / ((1 : ℚ) : ℝ)) - 1) * 100
        = 1 / 3 := by
    rw [hb]
    norm_num [Real.rpow_one]
  have hc : compute_cagr (1 / 3) 1 = round2R (1 / 3 : ℝ) := by
    rw [compute_cagr_pos (1 / 3) 1 (by norm_num) (by norm_num), hform]
  have hround : round2R (1 / 3 : ℝ) = 33 / 100 := by
    unfold round2R
    have h : (1 : ℝ) / 3 * 100 = 100 / 3 := by norm_num
    rw [h, round_hundred_thirds]
    norm_num
  exact ⟨hc.trans hround, hform, by norm_num⟩

/-- **C8, amended.** `compute_cagr` returns `0` when `years ≤ 0`; otherwise,
with `multiplier = 1 + total_return_pct / 100`, it returns `-100` when the
multiplier is `≤ 0`, and `(multiplier^(1/years) - 1) * 100` **rounded to two
decimal places** otherwise; in particular `compute_cagr (-150) 1 = -100`. -/
theorem c8_cagr_spec (t y : ℚ) :
    (y ≤ 0 → compute_cagr t y = 0) ∧
    (0 < y → 1 + t / 100 ≤ 0 → compute_cagr t y = -100) ∧
    (0 < y → 0 < 1 + t / 100 →
      compute_cagr t y =
        round2R ((Real.rpow ((1 : ℝ) + (t : ℝ) / 100) (1 / ((y : ℚ) : ℝ)) - 1) * 100)) ∧
    compute_cagr (-150) 1 = -100 := by
  refine ⟨?_, ?_, ?_, ?_⟩
  · intro hy
    unfold compute_cagr
    rw [if_pos hy]
  · intro hy hm
    unfold compute_cagr
    rw [if_neg (not_le.mpr hy), if_pos hm]
  · intro hy hm
    rw [compute_cagr_pos t y hy hm]
    have h : ((1 + t / 100 : ℚ) : ℝ) = (1 : ℝ) + (t : ℝ) / 100 := by
      push_cast
      ring
    rw [h]
  · unfold compute_cagr
    rw [if_neg (by norm_num : ¬ (1 : ℚ) ≤ 0),
      if_pos (by norm_num : (1 + (-150 : ℚ) / 100) ≤ 0)]

/-- **C9.** `calculate_max_drawdown`: the empty sequence yields `0`; on
`[10, -20, 5]` the equity path is `[1.10, 0.88, 0.924]` and the result is
exactly `-20`; on every series the equity curve is the running product of
`(1 + r/100)`, the running maximum is the prefix maximum, and the result is
the least element of the drawdown series `(equity/running_max - 1) * 100`. -/
theorem c9_max_drawdown :
    calculate_max_drawdown [] = 0 ∧
    ddEquity [10, -20, 5] = [11 / 10, 22 / 25, 231 / 250] ∧
    calculate_max_drawdown [10, -20, 5] = -20 ∧
    (∀ rs : List ℚ, ∀ i : ℕ, i < rs.length →
      (ddEquity rs)[i]? = some (((rs.take (i + 1)).map (fun r => 1 + r / 100)).prod) ∧
      (cummax (ddEquity rs))[i]? = some (listMax ((ddEquity rs).take (i + 1)))) ∧
    (∀ rs : List ℚ, rs ≠ [] →
      calculate_max_drawdown rs ∈ ddSeries rs ∧
      ∀ d ∈ ddSeries rs, calculate_max_drawdown rs ≤ d) := by
  refine ⟨rfl, by with_unfolding_all rfl, by with_unfolding_all rfl, ?_, ?_⟩
  · intro rs i h
    constructor
    · unfold ddEquity cumprod
      rw [scanMul_getElem _ 1 i (by simpa using h)]
      simp [List.map_take]
    · exact cummax_getElem _ i (by simpa [ddEquity_length] using h)
  · intro rs h
    have hlen : (ddSeries rs).length = rs.length := ddSeries_length rs
    cases hds : ddSeries rs with
    | nil =>
      exfalso
      apply h
      rw [hds] at hlen
      exact List.length_eq_zero.mp hlen.symm
    | cons d ds =>
      have hcalc : calculate_max_drawdown rs = ds.foldl min d := by
        unfold calculate_max_drawdown
        rw [if_neg h, hds]
        rfl
      constructor
      · rw [hcalc]
        rcases foldl_min_choice ds d with h1 | h1
        · rw [h1]
          exact List.mem_cons_self d ds
        · exact List.mem_cons_of_mem d h1
      · intro x hx
        rw [hcalc]
        rcases List.mem_cons.mp hx with rfl | h1
        · exact foldl_min_le_init ds x
        · exact foldl_min_le_mem ds d x h1

/-- Membership through sorted insertion. -/
theorem mem_insertSorted (a y : ℤ) (l : List ℤ) :
    a ∈ insertSorted y l ↔ a = y ∨ a ∈ l := by
  induction l with
  | nil => simp [insertSorted]
  | cons x xs ih =>
    simp only [insertSorted]
    split_ifs with h
    · simp [List.mem_cons]
    · simp only [List.mem_cons, ih]
      tauto

/-- Sorting the year keys keeps exactly the same members. -/
theorem mem_sortInts (a : ℤ) (l : List ℤ) : a ∈ sortInts l ↔ a ∈ l := by
  induction l with
  | nil => simp [sortInts]
  | cons x xs ih => simp only [sortInts, mem_insertSorted, ih, List.mem_cons]

/-- Collapsing adjacent duplicates keeps exactly the same members. -/
theorem mem_dedupAdj : ∀ (l : List ℤ) (a : ℤ), a ∈ dedupAdj l ↔ a ∈ l
  | [], a => by simp [dedupAdj]
  | [x], a => by simp [dedupAdj]
  | x :: y :: xs, a => by
    simp only [dedupAdj]
    split_ifs with h
    · rw [mem_dedupAdj (y :: xs) a]
      subst h
      simp only [List.mem_cons]
      tauto
    · simp only [List.mem_cons, mem_dedupAdj (y :: xs) a]

/-- What a defined `yearStatOf` result must look like. -/
theorem yearStatOf_eq (pts : List EquityPoint) (y : ℤ) (e : EquityYearStat)
    (h : yearStatOf pts y = some e) :
    2 ≤ (yearGroup pts y).length ∧
    e = { year := y,
          profit_pct := round2q
            (if 0 < ((yearGroup pts y).head?.getD
                { year := 0, equity := 0, drawdown_pct := 0 }).equity then
              (((yearGroup pts y).getLast?.getD
                  { year := 0, equity := 0, drawdown_pct := 0 }).equity /
                ((yearGroup pts y).head?.getD
                  { year := 0, equity := 0, drawdown_pct := 0 }).equity - 1) * 100
            else 0),
          max_drawdown_pct :=
            round2q (listMax ((yearGroup pts y).map EquityPoint.drawdown_pct)),
          start_equity := round2q (((yearGroup pts y).head?.getD
            { year := 0, equity := 0, drawdown_pct := 0 }).equity),
          end_equity := round2q (((yearGroup pts y).getLast?.getD
            { year := 0, equity := 0, drawdown_pct := 0 }).equity) } := by
  simp only [yearStatOf] at h
  split_ifs at h with hl hpos
  · exact ⟨by omega, by rw [if_pos hpos]; exact (Option.some_inj.mp h).symm⟩
  · exact ⟨by omega, by rw [if_neg hpos]; exact (Option.some_inj.mp h).symm⟩

/-- **C10, counterexample.** On a two-point curve for the year 2020 whose
equity runs from `-100` to `-50`, the code emits `profit_pct = 0` (the
`start_equity > 0` guard), while the claim's formula
`(end/start - 1) * 100` gives `-50`. -/
theorem c10_counterexample :
    equityYearlyStats
        [{ year := 2020, equity := -100, drawdown_pct := 0 },
         { year := 2020, equity := -50, drawdown_pct := 0 }] =
      [{ year := 2020, profit_pct := 0, max_drawdown_pct := 0,
         start_equity := -100, end_equity := -50 }] ∧
    ((-50 : ℚ) / (-100) - 1) * 100 = -50 ∧ (-50 : ℚ) ≠ 0 := by
  refine ⟨by with_unfolding_all rfl, by norm_num, by norm_num⟩

/-- **C10, amended.** The equity-curve yearly statistics are computed from
year-boundary values of the equity curve: every emitted entry belongs to a
year with at least 2 data points and carries
`profit_pct = round₂((end_equity/start_equity - 1) * 100)` over that year's
first and last equity points **when the year's start equity is positive
(and 0 otherwise)**, and `max_drawdown_pct = round₂(max drawdown_pct)` of
that year; every calendar year with fewer than 2 points is omitted entirely;
and every year with at least 2 points does get an entry. -/
theorem c10_yearly_stats_spec (pts : List EquityPoint) :
    (∀ e ∈ equityYearlyStats pts,
      2 ≤ (yearGroup pts e.year).length ∧
      e.profit_pct = round2q
        (if 0 < ((yearGroup pts e.year).head?.getD
            { year := 0, equity := 0, drawdown_pct := 0 }).equity then
          (((yearGroup pts e.year).getLast?.getD
              { year := 0, equity := 0, drawdown_pct := 0 }).equity /
            ((yearGroup pts e.year).head?.getD
              { year := 0, equity := 0, drawdown_pct := 0 }).equity - 1) * 100
        else 0) ∧
      e.max_drawdown_pct =
        round2q (listMax ((yearGroup pts e.year).map EquityPoint.drawdown_pct)) ∧
      e.start_equity = round2q (((yearGroup pts e.year).head?.getD
        { year := 0, equity := 0, drawdown_pct := 0 }).equity) ∧
      e.end_equity = round2q (((yearGroup pts e.year).getLast?.getD
        { year := 0, equity := 0, drawdown_pct := 0 }).equity)) ∧
    (∀ y : ℤ, (yearGroup pts y).length < 2 →
      ∀ e ∈ equityYearlyStats pts, e.year ≠ y) ∧
    (∀ y : ℤ, 2 ≤ (yearGroup pts y).length →
      ∃ e ∈ equityYearlyStats pts, e.year = y) := by
  refine ⟨?_, ?_, ?_⟩
  · intro e he
    obtain ⟨y, hy, hsome⟩ := List.mem_filterMap.mp he
    obtain ⟨hlen, rfl⟩ := yearStatOf_eq pts y e hsome
    exact ⟨hlen, rfl, rfl, rfl, rfl⟩
  · intro y hy e he
    obtain ⟨y', hy', hsome⟩ := List.mem_filterMap.mp he
    obtain ⟨hlen, rfl⟩ := yearStatOf_eq pts y' e hsome
    intro hcontra
    have h2 : y' = y := hcontra
    subst h2
    omega
  · intro y hy
    have hg : yearGroup pts y ≠ [] := by
      intro hc
      rw [hc] at hy
      simp at hy
    obtain ⟨p, hp⟩ := List.exists_mem_of_ne_nil _ hg
    have hpy : p.year = y := by
      have h1 := (List.mem_filter.mp hp).2
      simpa using h1
    have hmap : y ∈ pts.map EquityPoint.year :=
      List.mem_map.mpr ⟨p, (List.mem_filter.mp hp).1, hpy⟩
    have hyin : y ∈ dedupAdj (sortInts (pts.map EquityPoint.year)) := by
      rw [mem_dedupAdj, mem_sortInts]
      exact hmap
    have hsome : ∃ e, yearStatOf pts y = some e := by
      simp only [yearStatOf]
      rw [if_neg (by omega : ¬ (yearGroup pts y).length < 2)]
      exact ⟨_, rfl⟩
    obtain ⟨e, he⟩ := hsome
    refine ⟨e, List.mem_filterMap.mpr ⟨y, hyin, he⟩, ?_⟩
    obtain ⟨_, rfl⟩ := yearStatOf_eq pts y e he
    rfl

end RsiSlope
